import Mathlib

/-!
Shallow embedding of the portfolio analytics calculation engine of
`src/components/PortfolioInsights.tsx` (the "Analytics Calculation Engine").

Conventions of the embedding:
* JavaScript numbers are modelled as exact rationals `ℚ`; the one place the
  source takes a square root (`Math.sqrt` in `calculateAdvancedMetrics`) is
  modelled over `ℝ` with `Real.sqrt`, and the one place it can divide by
  zero (the Sharpe ratio) produces an IEEE-style value `RVal` that can be
  `±Infinity`.
* A field that may hold `undefined`, `null` or a number at runtime is
  modelled by the type `JVal`; the JS idiom `v || 0` is `JVal.orZero`.
* A function argument that may fail the `Array.isArray` check is modelled by
  `JArr α` (either `notArray` or an actual list).
* A thrown JS exception is an `Except String` error; the `safeCalculation`
  wrapper of the source corresponds to the `match`-on-`Except` in each
  public function, which returns the documented fallback on `.error`.
  `safeCalculation` additionally replaces a *top-level number* result that is
  `NaN`/non-finite by the fallback; in this embedding the only function whose
  top-level result is a number (`calculateDiversificationScore`) always
  produces a finite rational, so that guard is the identity and is not
  written out; for the record-returning functions the source guard does not
  fire (typeof of a record is not "number"), which the
  embedding reproduces by not inspecting record fields.
-/

namespace PortfolioInsights

/-- A JS runtime value of a numeric-ish field: `undefined`, `null`, or a
finite number (modelled as a rational). -/
inductive JVal where
  | undef : JVal
  | null : JVal
  | num : ℚ → JVal
deriving DecidableEq

/-- The JS idiom `v || 0` on a `JVal`: numbers pass through (`0` is falsy but
`0 || 0 = 0` anyway), `undefined` and `null` become `0`. -/
def JVal.orZero : JVal → ℚ
  | .num q => q
  | _ => 0

/-- JS check: typeof v === "number". -/
def JVal.isNum : JVal → Bool
  | .num _ => true
  | _ => false

/-- The JS `Number(v)` coercion performed by `Math.max` on its arguments:
`null` coerces to `0`, `undefined` to NaN (modelled as `none`). -/
def JVal.toNumber : JVal → Option ℚ
  | .num q => some q
  | .null => some 0
  | .undef => none

/-- An argument that may fail the `Array.isArray` check. -/
inductive JArr (α : Type) where
  | notArray : JArr α
  | arr : List α → JArr α
deriving DecidableEq

/-- Model of `EnrichedAsset` (a CryptoAsset plus `holding_quantity`).  Only the
fields read by the engine are modelled; `id`/`symbol`/`name` are `Option`s so
the falsy checks of the validator (!asset.id) are expressible, and the
numeric fields are `JVal`s so its typeof checks are expressible. -/
structure EnrichedAsset where
  id : Option String
  symbol : Option String
  name : Option String
  current_price : JVal
  holding_quantity : JVal
  price_change_percentage_24h : JVal
deriving DecidableEq

/-- Model of `AllocationData`.  The engine functions read only `percentage`; the
`asset` and `value` fields of the source interface are never inspected by the
engine and are omitted from the embedding. -/
structure AllocationData where
  percentage : JVal
deriving DecidableEq

/-- Model of `PerformerData`. -/
structure PerformerData where
  asset : EnrichedAsset
  percentage : ℚ
  gainLoss : ℚ
  value : ℚ
deriving DecidableEq

/-- Model of `PerformersResult`; an `Option` models PerformerData-or-null. -/
structure PerformersResult where
  bestPerformer : Option PerformerData
  worstPerformer : Option PerformerData
deriving DecidableEq

/-- An IEEE-style number: finite, `±Infinity`, or `NaN`. -/
inductive RVal where
  | fin : ℝ → RVal
  | posInf : RVal
  | negInf : RVal
  | nan : RVal

/-- Whether an `RVal` is a finite number. -/
def RVal.finite : RVal → Bool
  | .fin _ => true
  | _ => false

/-- Model of `AdvancedMetrics`.  The second source field is named `sharpe`
here; `volatility` and `maxDrawdown` keep their names.  All three are
`RVal`s because the source computes them with IEEE arithmetic and (see
`jsDiv`) the Sharpe ratio can come out `±Infinity`. -/
structure AdvancedMetrics where
  volatility : RVal
  sharpe : RVal
  maxDrawdown : RVal

/-- Model of `RiskLevel`. -/
inductive RiskLevel where
  | Low : RiskLevel
  | Medium : RiskLevel
  | High : RiskLevel
deriving DecidableEq

/-- Result record of `validatePortfolioData`. -/
structure ValidationResult where
  isValid : Bool
  errors : List String
deriving DecidableEq

/-- Model of validateInput(value, name, validator, msg): throws when the validator
rejects the value.  The embedding passes the already-evaluated validator. -/
def validateInput (ok : Bool) (msg : String) : Except String Unit :=
  if ok then .ok () else .error msg

/-- JS Math.round(q * 100) / 100: round to 2 decimal places, halves toward
positive infinity (JS Math.round rounds to the floor of x + 1/2). -/
def round2 (q : ℚ) : ℚ := (⌊q * 100 + 1/2⌋ : ℚ) / 100

/-- JS Math.round(x * 100) / 100 over `ℝ`. -/
noncomputable def round2R (x : ℝ) : ℝ := (⌊x * 100 + 1/2⌋ : ℝ) / 100

/-- Rounding an IEEE value to 2 decimals: Math.round maps infinities to themselves
and Math.round of NaN is NaN, so only finite values change. -/
noncomputable def roundRV : RVal → RVal
  | .fin x => .fin (round2R x)
  | v => v

/-- IEEE division `a / b` for `a b : ℝ`: finite when `b ≠ 0`, otherwise
`±Infinity` by the sign of `a`, and `NaN` for `0 / 0`. -/
noncomputable def jsDiv (a b : ℝ) : RVal :=
  if b ≠ 0 then .fin (a / b)
  else if 0 < a then .posInf
  else if a < 0 then .negInf
  else .nan

/-! ## calculateDiversificationScore -/

/-- The validator of `percentage` entries inside the HHI reduction:
typeof val === "number" and 0 <= val <= 100. -/
def percentageValid : JVal → Bool
  | .num q => decide (0 ≤ q) && decide (q ≤ 100)
  | _ => false

/-- The `allocation.reduce` of `calculateDiversificationScore`: validates
each `percentage` (throwing on a violation) and accumulates the sum of
squared percentages. -/
def hhiFold : List AllocationData → ℚ → Except String ℚ
  | [], sum => .ok sum
  | item :: rest, sum =>
      match item.percentage with
      | .num q =>
          if 0 ≤ q ∧ q ≤ 100 then hhiFold rest (sum + q ^ 2)
          else .error "Invalid percentage"
      | _ => .error "Invalid percentage"

/-- Body of `calculateDiversificationScore` (inside `safeCalculation`). -/
def diversificationBody : JArr AllocationData → Except String ℚ
  | .notArray => .error "Allocation must be an array"
  | .arr allocation =>
      if allocation.length = 0 then .ok 0
      else if allocation.length = 1 then .ok 0
      else
        match hhiFold allocation 0 with
        | .error e => .error e
        | .ok hhi => .ok (round2 (max 0 (min 100 (100 - hhi / 100))))

/-- Public `calculateDiversificationScore`: body wrapped in safeCalculation with
fallback `0`.  (The top-level `NaN`/non-finite guard of `safeCalculation`
does apply to this number result, but the body only produces finite
rationals, so the guard is the identity here.) -/
def calculateDiversificationScore (allocation : JArr AllocationData) : ℚ :=
  match diversificationBody allocation with
  | .ok v => v
  | .error _ => 0

/-! ## assessRiskLevel -/

/-- JS spread Math.max over a list of `JVal`s: each argument is coerced with
Number (null to 0, undefined to NaN); any NaN poisons the result
(`none`).  The empty spread gives minus infinity, also modelled as `none`:
the source only compares the result against positive thresholds, and such
comparisons are false for NaN and minus infinity alike. -/
def jsMathMax (l : List JVal) : Option ℚ :=
  if l.all (fun v => v.toNumber.isSome) then
    match l.filterMap JVal.toNumber with
    | [] => none
    | q :: qs => some (qs.foldl max q)
  else none

/-- Comparison m > t where m may be NaN or minus infinity (`none`): false then. -/
def gtJ (m : Option ℚ) (t : ℚ) : Bool :=
  match m with
  | some q => decide (t < q)
  | none => false

/-- Body of `assessRiskLevel` (inside `safeCalculation`). -/
def riskBody : JArr AllocationData → JArr EnrichedAsset → Except String RiskLevel
  | .notArray, _ => .error "Invalid allocation"
  | .arr _, .notArray => .error "Invalid assets"
  | .arr allocation, .arr assets =>
      if allocation.length = 0 ∨ assets.length = 0 then .ok .Low
      else
        let largestAllocation := jsMathMax (allocation.map (fun a => a.percentage))
        let concentration : ℚ :=
          if gtJ largestAllocation 70 then 40
          else if gtJ largestAllocation 40 then 20 else 0
        let assetCount := assets.length
        let countRisk : ℚ :=
          if assetCount < 3 then 30 else if assetCount < 5 then 15 else 0
        let avgVolatility : ℚ :=
          (assets.map (fun a => |a.price_change_percentage_24h.orZero|)).sum
            / assets.length
        let volRisk : ℚ :=
          if 10 < avgVolatility then 30 else if 5 < avgVolatility then 15 else 0
        let riskScore := concentration + countRisk + volRisk
        .ok (if 60 ≤ riskScore then .High
             else if 30 ≤ riskScore then .Medium else .Low)

/-- Public `assessRiskLevel`: body wrapped in safeCalculation, fallback Low
(the result is a string, so the top-level number guard never fires). -/
def assessRiskLevel (allocation : JArr AllocationData)
    (assets : JArr EnrichedAsset) : RiskLevel :=
  match riskBody allocation assets with
  | .ok v => v
  | .error _ => .Low

/-! ## calculateAdvancedMetrics -/

/-- Body of `calculateAdvancedMetrics` (inside `safeCalculation`).  The
`assets.length === 0` early return is the `.arr []` case; in the non-empty
case the `Math.min(...mapped)` spread is a fold of `min` over the non-empty
mapped list. -/
noncomputable def metricsBody : JArr EnrichedAsset → Except String AdvancedMetrics
  | .notArray => .error "Invalid assets"
  | .arr [] => .ok ⟨.fin 0, .fin 0, .fin 0⟩
  | .arr (a :: rest) =>
      let priceChanges :=
        (a :: rest).map (fun x => x.price_change_percentage_24h.orZero)
      let avgChange : ℚ := priceChanges.sum / priceChanges.length
      let variance : ℚ :=
        (priceChanges.map (fun c => (c - avgChange) ^ 2)).sum / priceChanges.length
      let volatility : ℝ := Real.sqrt ((variance : ℚ) : ℝ)
      let sharpe : RVal :=
        if avgChange ≠ 0 then jsDiv ((avgChange : ℚ) : ℝ) volatility else .fin 0
      let drawList := priceChanges.map (fun c => min 0 c)
      let maxDrawdown : ℚ :=
        match drawList with
        | [] => 0
        | d :: ds => ds.foldl min d
      .ok ⟨.fin (round2R volatility), roundRV sharpe,
           .fin (((round2 |maxDrawdown| : ℚ) : ℝ))⟩

/-- Public `calculateAdvancedMetrics`: body wrapped in safeCalculation with the
all-zero fallback record.  The result is a record, not a number, so the
top-level `NaN`/non-finite guard of `safeCalculation` does not inspect it
(in particular it does not inspect the `sharpe` field). -/
noncomputable def calculateAdvancedMetrics (assets : JArr EnrichedAsset) :
    AdvancedMetrics :=
  match metricsBody assets with
  | .ok v => v
  | .error _ => ⟨.fin 0, .fin 0, .fin 0⟩

/-! ## identifyPerformers -/

/-- The `assets.map` of `identifyPerformers`, building one `PerformerData`. -/
def toPerformerData (a : EnrichedAsset) : PerformerData :=
  let value := a.current_price.orZero * a.holding_quantity.orZero
  let percentage := a.price_change_percentage_24h.orZero
  { asset := a
    percentage := percentage
    gainLoss := value * (percentage / 100)
    value := value }

/-- The `totalPortfolioValue` validator:
typeof val === "number" and 0 <= val. -/
def totalValueValid : JVal → Bool
  | .num q => decide (0 ≤ q)
  | _ => false

/-- Body of `identifyPerformers` (inside `safeCalculation`).  The two
`reduce` calls have no initial value, so they fold the tail over the head;
on an empty `performanceData` JS `reduce` would throw, but the
`assets.length === 0` early return makes that unreachable. -/
def performersBody : JArr EnrichedAsset → JVal → Except String PerformersResult
  | .notArray, _ => .error "Invalid assets"
  | .arr l, totalPortfolioValue =>
      if totalValueValid totalPortfolioValue then
        if l.length = 0 then .ok ⟨none, none⟩
        else
          let performanceData := l.map toPerformerData
          match performanceData with
          | [] => .error "Reduce of empty array with no initial value"
          | p :: ps =>
              let bestPerformer := ps.foldl
                (fun best current =>
                  if best.percentage < current.percentage then current else best) p
              let worstPerformer := ps.foldl
                (fun worst current =>
                  if current.percentage < worst.percentage then current else worst) p
              .ok ⟨if 0 < bestPerformer.percentage then some bestPerformer else none,
                   if worstPerformer.percentage < 0 then some worstPerformer else none⟩
      else .error "Invalid totalPortfolioValue"

/-- Public `identifyPerformers`: body wrapped in safeCalculation with fallback
`{bestPerformer:null, worstPerformer:null}` (the result is a record, so the
top-level number guard never fires). -/
def identifyPerformers (assets : JArr EnrichedAsset)
    (totalPortfolioValue : JVal) : PerformersResult :=
  match performersBody assets totalPortfolioValue with
  | .ok v => v
  | .error _ => ⟨none, none⟩

/-! ## validatePortfolioData -/

/-- The per-asset checks of the `assets.forEach` in `validatePortfolioData`,
with `idx` the 1-indexed position used in the messages.  Checks are
independent and accumulate in source order. -/
def validateAsset (idx : ℕ) (a : EnrichedAsset) : List String :=
  (if a.id.getD "" = "" then ["Asset " ++ toString idx ++ ": Missing ID"] else [])
  ++ (if a.symbol.getD "" = "" then
        ["Asset " ++ toString idx ++ ": Missing symbol"] else [])
  ++ (if (match a.current_price with
          | .num q => decide (q < 0)
          | _ => true) then
        ["Asset " ++ toString idx ++ ": Invalid current price"] else [])
  ++ (if (match a.holding_quantity with
          | .num q => decide (q < 0)
          | _ => true) then
        ["Asset " ++ toString idx ++ ": Invalid holding quantity"] else [])
  ++ (if (match a.price_change_percentage_24h with
          | .null => false
          | .num _ => false
          | .undef => true) then
        ["Asset " ++ toString idx ++ ": Invalid price change percentage"] else [])

/-- Body of `validatePortfolioData` (inside `safeCalculation`).  None of its
operations can throw (it has no `validateInput` calls), so it is a plain
function; it is still wrapped in `safeCalculation` in the source, whose
catch branch (fallback `{isValid:false, errors:["Validation failed"]}`) is
therefore unreachable, and whose number guard never fires on the record. -/
def validateBody : JArr EnrichedAsset → Except String ValidationResult
  | .notArray => .ok ⟨false, ["Assets must be an array"]⟩
  | .arr [] => .ok ⟨false, ["Portfolio cannot be empty"]⟩
  | .arr (a :: l) =>
      let errors :=
        ((a :: l).enum.map (fun p => validateAsset (p.1 + 1) p.2)).flatten
      .ok ⟨errors.isEmpty, errors⟩

/-- Public `validatePortfolioData`: body wrapped in safeCalculation with fallback
`{isValid:false, errors:["Validation failed"]}`. -/
def validatePortfolioData (assets : JArr EnrichedAsset) : ValidationResult :=
  match validateBody assets with
  | .ok v => v
  | .error _ => ⟨false, ["Validation failed"]⟩

/-! ## Spec-side definitions

Definitions in this section follow the wording of the specification (not the
source); the claim theorems compare them with the source-derived functions
above. -/

/-- List of 24h price changes of a list of assets, missing values treated as
zero (spec wording for the x_i sequence). -/
def pcList (assets : List EnrichedAsset) : List ℚ :=
  assets.map (fun x => x.price_change_percentage_24h.orZero)

/-- Spec wording: mean of a list of numbers. -/
def specMean (xs : List ℚ) : ℚ := xs.sum / xs.length

/-- Spec wording: population variance, the mean of the squared deviations
from the mean. -/
def specVariance (xs : List ℚ) : ℚ :=
  ((xs.map (fun x => (x - specMean xs) ^ 2)).sum) / xs.length

/-- Spec wording: population standard deviation. -/
noncomputable def specVolatility (xs : List ℚ) : ℝ :=
  Real.sqrt ((specVariance xs : ℚ) : ℝ)

/-- Maximum of the number q and the entries of l. -/
def maxOf (q : ℚ) (l : List ℚ) : ℚ := l.foldl max q

/-- Minimum of the number q and the entries of l. -/
def minOf (q : ℚ) (l : List ℚ) : ℚ := l.foldl min q

/-- Spec wording for the drawdown magnitude: the absolute value of
min(0, min over the changes), the changes being q followed by l. -/
def specMaxDrawdown (q : ℚ) (l : List ℚ) : ℚ := |min 0 (minOf q l)|

/-- Spec wording, risk factor 1 (concentration), from the maximum
allocation percentage m. -/
def specConcentrationRisk (m : ℚ) : ℚ :=
  if 70 < m then 40 else if 40 < m then 20 else 0

/-- Spec wording, risk factor 2 (asset count). -/
def specCountRisk (n : ℕ) : ℚ :=
  if n < 3 then 30 else if n < 5 then 15 else 0

/-- Spec wording, risk factor 3 (volatility proxy), from the mean absolute
24h change. -/
def specVolatilityRisk (avg : ℚ) : ℚ :=
  if 10 < avg then 30 else if 5 < avg then 15 else 0

/-- Spec wording: mean of the absolute 24h changes, missing treated as 0. -/
def specAvgAbsChange (assets : List EnrichedAsset) : ℚ :=
  (assets.map (fun a => |a.price_change_percentage_24h.orZero|)).sum
    / assets.length

/-- Spec wording: classification of the total risk score. -/
def specClassify (total : ℚ) : RiskLevel :=
  if 60 ≤ total then .High else if 30 ≤ total then .Medium else .Low

/-- Sample asset builder used in concrete witnesses and counterexamples. -/
def mkAsset (i s : String) (price qty : ℚ) (pc : JVal) : EnrichedAsset :=
  ⟨some i, some s, some s, .num price, .num qty, pc⟩

/-! ## Helper lemmas -/

lemma round2_le (q : ℚ) : round2 q ≤ q + 1 / 200 := by
  unfold round2
  have h := Int.floor_le (q * 100 + 1 / 2)
  have h100 : (0 : ℚ) < 100 := by norm_num
  rw [div_le_iff₀ h100]
  linarith

lemma lt_round2 (q : ℚ) : q - 1 / 200 < round2 q := by
  unfold round2
  have h := Int.lt_floor_add_one (q * 100 + 1 / 2)
  have h100 : (0 : ℚ) < 100 := by norm_num
  rw [lt_div_iff₀ h100]
  linarith

lemma round2_nonneg {q : ℚ} (h : 0 ≤ q) : 0 ≤ round2 q := by
  unfold round2
  have : (0 : ℤ) ≤ ⌊q * 100 + 1 / 2⌋ := by
    apply Int.floor_nonneg.mpr
    linarith
  positivity

lemma round2_le_hundred {q : ℚ} (h : q ≤ 100) : round2 q ≤ 100 := by
  unfold round2
  have h1 : ⌊q * 100 + 1 / 2⌋ ≤ ⌊(20001 : ℚ) / 2⌋ := by
    apply Int.floor_le_floor
    linarith
  have h2 : ⌊(20001 : ℚ) / 2⌋ = 10000 := by
    rw [Int.floor_eq_iff] ; norm_num
  rw [h2] at h1
  have : (⌊q * 100 + 1 / 2⌋ : ℚ) ≤ 10000 := by exact_mod_cast h1
  linarith

lemma round2_zero : round2 0 = 0 := by
  unfold round2
  norm_num

lemma hhiFold_ok : ∀ (l : List AllocationData) (acc : ℚ),
    (∀ x ∈ l, percentageValid x.percentage = true) →
    hhiFold l acc = .ok (acc + (l.map (fun x => x.percentage.orZero ^ 2)).sum) := by
  intro l
  induction l with
  | nil => intro acc _; simp [hhiFold]
  | cons item rest ih =>
      intro acc h
      have hitem : percentageValid item.percentage = true := h item (by simp)
      cases hp : item.percentage with
      | num q =>
          have hq : 0 ≤ q ∧ q ≤ 100 := by
            rw [hp] at hitem
            simp [percentageValid] at hitem
            exact hitem
          have hrest : ∀ x ∈ rest, percentageValid x.percentage = true := by
            intro x hx; exact h x (by simp [hx])
          rw [hhiFold, hp]
          simp only [hq, if_true]
          rw [ih (acc + q ^ 2) hrest]
          simp [JVal.orZero, hp, List.sum_cons]
          ring
      | undef => rw [hp] at hitem; simp [percentageValid] at hitem
      | null => rw [hp] at hitem; simp [percentageValid] at hitem

lemma hhiFold_err : ∀ (l : List AllocationData) (acc : ℚ),
    (∃ x ∈ l, percentageValid x.percentage = false) →
    (hhiFold l acc).isOk = false := by
  intro l
  induction l with
  | nil => intro acc h; simp at h
  | cons item rest ih =>
      intro acc h
      cases hp : item.percentage with
      | num q =>
          by_cases hq : 0 ≤ q ∧ q ≤ 100
          · have : ∃ x ∈ rest, percentageValid x.percentage = false := by
              rcases h with ⟨x, hx, hxv⟩
              rcases List.mem_cons.mp hx with rfl | hx
              · rw [hp] at hxv; simp [percentageValid, hq.1, hq.2] at hxv
              · exact ⟨x, hx, hxv⟩
            rw [hhiFold, hp]
            simp only [hq, if_true]
            exact ih _ this
          · rw [hhiFold, hp]
            simp only [hq, if_false]
            rfl
      | undef => rw [hhiFold, hp]; rfl
      | null => rw [hhiFold, hp]; rfl

/-- Evaluation of the diversification score on a length-two-or-more list of
valid percentages: the clamped, rounded HHI formula. -/
lemma divScore_eval (l : List AllocationData) (hlen : 2 ≤ l.length)
    (hval : ∀ x ∈ l, percentageValid x.percentage = true) :
    calculateDiversificationScore (.arr l) =
      round2 (max 0 (min 100
        (100 - (l.map (fun x => x.percentage.orZero ^ 2)).sum / 100))) := by
  have h0 : ¬ l.length = 0 := by omega
  have h1 : ¬ l.length = 1 := by omega
  have hbody : diversificationBody (.arr l) =
      .ok (round2 (max 0 (min 100
        (100 - (l.map (fun x => x.percentage.orZero ^ 2)).sum / 100)))) := by
    simp only [diversificationBody, if_neg h0, if_neg h1]
    rw [hhiFold_ok l 0 hval]
    norm_num
  unfold calculateDiversificationScore
  rw [hbody]

/-- C1: No public engine function ever raises an exception to its caller:
each is a total function; on malformed input of the wrong type (a non-array
where an array is expected) and, more generally, whenever its internal
computation throws (its body is an error), it returns its documented
fallback: 0 for the diversification score, Low for the risk level, the
all-zero record for advanced metrics, the all-null record for performers,
and the Validation-failed record for validation (whose body never throws,
so that clause is vacuous, and whose non-array answer is the explicit
Assets-must-be-an-array error). -/
theorem C1_no_throw_fallbacks :
    (∀ x, (diversificationBody x).isOk = false →
      calculateDiversificationScore x = 0)
    ∧ calculateDiversificationScore .notArray = 0
    ∧ (∀ x y, (riskBody x y).isOk = false → assessRiskLevel x y = .Low)
    ∧ (∀ y, assessRiskLevel .notArray y = .Low)
    ∧ (∀ x, assessRiskLevel x .notArray = .Low)
    ∧ (∀ x, (metricsBody x).isOk = false →
        calculateAdvancedMetrics x = ⟨.fin 0, .fin 0, .fin 0⟩)
    ∧ calculateAdvancedMetrics .notArray = ⟨.fin 0, .fin 0, .fin 0⟩
    ∧ (∀ x t, (performersBody x t).isOk = false →
        identifyPerformers x t = ⟨none, none⟩)
    ∧ (∀ t, identifyPerformers .notArray t = ⟨none, none⟩)
    ∧ (∀ x, (validateBody x).isOk = false →
        validatePortfolioData x = ⟨false, ["Validation failed"]⟩)
    ∧ validatePortfolioData .notArray = ⟨false, ["Assets must be an array"]⟩ := by
  refine ⟨?_, rfl, ?_, fun y => rfl, ?_, ?_, rfl, ?_, fun t => rfl, ?_, rfl⟩
  · intro x h
    unfold calculateDiversificationScore
    cases hb : diversificationBody x with
    | ok v => rw [hb] at h; simp [Except.isOk, Except.toBool] at h
    | error e => rfl
  · intro x y h
    unfold assessRiskLevel
    cases hb : riskBody x y with
    | ok v => rw [hb] at h; simp [Except.isOk, Except.toBool] at h
    | error e => rfl
  · intro x
    cases x with
    | notArray => rfl
    | arr l => rfl
  · intro x h
    unfold calculateAdvancedMetrics
    cases hb : metricsBody x with
    | ok v => rw [hb] at h; simp [Except.isOk, Except.toBool] at h
    | error e => rfl
  · intro x t h
    unfold identifyPerformers
    cases hb : performersBody x t with
    | ok v => rw [hb] at h; simp [Except.isOk, Except.toBool] at h
    | error e => rfl
  · intro x h
    unfold validatePortfolioData
    cases hb : validateBody x with
    | ok v => rw [hb] at h; simp [Except.isOk, Except.toBool] at h
    | error e => rfl

/-- Witness for C1 at a concrete input: the non-array diversification call
has a failing body and returns the fallback 0. -/
theorem C1_witness :
    (diversificationBody .notArray).isOk = false ∧
      calculateDiversificationScore .notArray = 0 :=
  ⟨by rfl, C1_no_throw_fallbacks.1 .notArray (by rfl)⟩

/-- C4: the diversification score is 0 on the empty and on every
single-element allocation list; on a list of length at least 2 whose every
percentage is a number in the range 0 to 100 it is the clamped, rounded HHI
formula and lies in the range 0 to 100; and any entry whose percentage is
not a number in that range forces the fallback 0. -/
theorem C4_diversification_formula :
    calculateDiversificationScore (.arr []) = 0
    ∧ (∀ x, calculateDiversificationScore (.arr [x]) = 0)
    ∧ (∀ l, 2 ≤ l.length → (∀ x ∈ l, percentageValid x.percentage = true) →
        calculateDiversificationScore (.arr l) =
          round2 (max 0 (min 100
            (100 - (l.map (fun x => x.percentage.orZero ^ 2)).sum / 100)))
        ∧ 0 ≤ calculateDiversificationScore (.arr l)
        ∧ calculateDiversificationScore (.arr l) ≤ 100)
    ∧ (∀ l x, x ∈ l → percentageValid x.percentage = false →
        calculateDiversificationScore (.arr l) = 0) := by
  refine ⟨rfl, fun x => rfl, ?_, ?_⟩
  · intro l hlen hval
    have heval := divScore_eval l hlen hval
    refine ⟨heval, ?_, ?_⟩
    · rw [heval]
      exact round2_nonneg (le_max_left 0 _)
    · rw [heval]
      exact round2_le_hundred (max_le (by norm_num) (min_le_left 100 _))
  · intro l x hx hxv
    by_cases h0 : l.length = 0
    · rw [List.length_eq_zero] at h0
      subst h0
      simp at hx
    · by_cases h1 : l.length = 1
      · have hbody : diversificationBody (.arr l) = .ok 0 := by
          simp only [diversificationBody]
          rw [if_neg h0, if_pos h1]
        unfold calculateDiversificationScore
        rw [hbody]
      · have herr := hhiFold_err l 0 ⟨x, hx, hxv⟩
        cases hb : hhiFold l 0 with
        | ok v => rw [hb] at herr; simp [Except.isOk, Except.toBool] at herr
        | error e =>
            have hbody : diversificationBody (.arr l) = .error e := by
              simp only [diversificationBody]
              rw [if_neg h0, if_neg h1, hb]
            unfold calculateDiversificationScore
            rw [hbody]

/-- Witness for C4 at a concrete input: the even 50/50 split has length 2,
valid percentages and a non-negative score. -/
theorem C4_witness :
    (2 ≤ ([AllocationData.mk (.num 50), AllocationData.mk (.num 50)] :
        List AllocationData).length)
    ∧ 0 ≤ calculateDiversificationScore
        (.arr [AllocationData.mk (.num 50), AllocationData.mk (.num 50)]) :=
  ⟨by decide,
   (C4_diversification_formula.2.2.1 _ (by decide) (by decide)).2.1⟩

/-- C9: for every asset count n of at least 2, the concentrated allocation
(one entry at 90 percent, the remaining n-1 entries sharing the other 10
percent evenly) scores strictly lower than the even allocation of n entries
at 100/n percent each. -/
theorem C9_hhi_monotonicity :
    ∀ n : ℕ, 2 ≤ n →
      calculateDiversificationScore (.arr
        (AllocationData.mk (.num 90) ::
          List.replicate (n - 1)
            (AllocationData.mk (.num (10 / ((n : ℚ) - 1)))))) <
      calculateDiversificationScore (.arr
        (List.replicate n (AllocationData.mk (.num (100 / (n : ℚ)))))) := by
  intro n hn
  have hnq : (2 : ℚ) ≤ (n : ℚ) := by exact_mod_cast hn
  have hkpos : (0 : ℚ) < (n : ℚ) - 1 := by linarith
  have hkne : ((n : ℚ) - 1) ≠ 0 := ne_of_gt hkpos
  have hk1 : (1 : ℚ) ≤ (n : ℚ) - 1 := by linarith
  have hnpos : (0 : ℚ) < (n : ℚ) := by linarith
  have hnne : ((n : ℚ)) ≠ 0 := ne_of_gt hnpos
  have invk_pos : (0 : ℚ) < 1 / ((n : ℚ) - 1) := by positivity
  have invk_le : 1 / ((n : ℚ) - 1) ≤ 1 := by
    rw [div_le_one hkpos]; linarith
  have hq1_pos : (0 : ℚ) < 10 / ((n : ℚ) - 1) := by positivity
  have hq1_le : 10 / ((n : ℚ) - 1) ≤ 10 := by
    rw [div_le_iff₀ hkpos]; linarith
  have hq2_pos : (0 : ℚ) < 100 / (n : ℚ) := by positivity
  have hq2_le : 100 / (n : ℚ) ≤ 50 := by
    rw [div_le_iff₀ hnpos]; linarith
  -- evaluate the concentrated allocation
  have hlen1 : 2 ≤ (AllocationData.mk (.num 90) ::
      List.replicate (n - 1)
        (AllocationData.mk (.num (10 / ((n : ℚ) - 1))))).length := by
    simp [List.length_replicate]
    omega
  have hval1 : ∀ x ∈ (AllocationData.mk (.num 90) ::
      List.replicate (n - 1)
        (AllocationData.mk (.num (10 / ((n : ℚ) - 1))))),
      percentageValid x.percentage = true := by
    intro x hx
    rcases List.mem_cons.mp hx with rfl | hx
    · simp [percentageValid]
      norm_num
    · rw [List.eq_of_mem_replicate hx]
      simp [percentageValid, decide_eq_true_eq]
      exact ⟨le_of_lt hq1_pos, by linarith⟩
  have he1 := divScore_eval _ hlen1 hval1
  have hsum1 : ((AllocationData.mk (.num 90) ::
      List.replicate (n - 1)
        (AllocationData.mk (.num (10 / ((n : ℚ) - 1))))).map
        (fun x => x.percentage.orZero ^ 2)).sum
      = 8100 + ((n : ℚ) - 1) * (10 / ((n : ℚ) - 1)) ^ 2 := by
    have hcast : ((n - 1 : ℕ) : ℚ) = (n : ℚ) - 1 := by
      have h1 : (1 : ℕ) ≤ n := by omega
      push_cast [Nat.cast_sub h1]
      ring
    rw [List.map_cons, List.sum_cons, List.map_replicate, List.sum_replicate]
    simp [JVal.orZero, nsmul_eq_mul, hcast]
    norm_num
  have hargs1 : (100 : ℚ) -
      (8100 + ((n : ℚ) - 1) * (10 / ((n : ℚ) - 1)) ^ 2) / 100
      = 19 - 1 / ((n : ℚ) - 1) := by
    field_simp
    ring
  rw [hsum1, hargs1] at he1
  have hmin1 : min (100 : ℚ) (19 - 1 / ((n : ℚ) - 1)) =
      19 - 1 / ((n : ℚ) - 1) := min_eq_right (by linarith)
  have hmax1 : max (0 : ℚ) (19 - 1 / ((n : ℚ) - 1)) =
      19 - 1 / ((n : ℚ) - 1) := max_eq_right (by linarith)
  rw [hmin1, hmax1] at he1
  -- evaluate the even allocation
  have hlen2 : 2 ≤ (List.replicate n
      (AllocationData.mk (.num (100 / (n : ℚ))))).length := by
    simp [List.length_replicate]; omega
  have hval2 : ∀ x ∈ List.replicate n
      (AllocationData.mk (.num (100 / (n : ℚ)))),
      percentageValid x.percentage = true := by
    intro x hx
    rw [List.eq_of_mem_replicate hx]
    simp [percentageValid, decide_eq_true_eq]
    exact ⟨le_of_lt hq2_pos, by linarith⟩
  have he2 := divScore_eval _ hlen2 hval2
  have hsum2 : ((List.replicate n
      (AllocationData.mk (.num (100 / (n : ℚ))))).map
        (fun x => x.percentage.orZero ^ 2)).sum
      = (n : ℚ) * (100 / (n : ℚ)) ^ 2 := by
    rw [List.map_replicate, List.sum_replicate]
    simp [JVal.orZero, nsmul_eq_mul]
  have hargs2 : (100 : ℚ) - ((n : ℚ) * (100 / (n : ℚ)) ^ 2) / 100
      = 100 - 100 / (n : ℚ) := by
    field_simp
    ring
  rw [hsum2, hargs2] at he2
  have hmin2 : min (100 : ℚ) (100 - 100 / (n : ℚ)) =
      100 - 100 / (n : ℚ) := min_eq_right (by linarith)
  have hmax2 : max (0 : ℚ) (100 - 100 / (n : ℚ)) =
      100 - 100 / (n : ℚ) := max_eq_right (by linarith)
  rw [hmin2, hmax2] at he2
  -- compare the two rounded scores
  have hup := round2_le (19 - 1 / ((n : ℚ) - 1))
  have hlo := lt_round2 (100 - 100 / (n : ℚ))
  rw [he1, he2]
  linarith

/-- Witness for C9 at the concrete asset count 2. -/
theorem C9_witness :
    (2 ≤ 2) ∧
      calculateDiversificationScore (.arr
        (AllocationData.mk (.num 90) ::
          List.replicate (2 - 1)
            (AllocationData.mk (.num (10 / ((2 : ℚ) - 1)))))) <
      calculateDiversificationScore (.arr
        (List.replicate 2 (AllocationData.mk (.num (100 / (2 : ℚ)))))) :=
  ⟨by norm_num, C9_hhi_monotonicity 2 (by norm_num)⟩

lemma filterMap_toNumber_of_num : ∀ (l : List JVal),
    (∀ x ∈ l, x.isNum = true) →
    l.filterMap JVal.toNumber = l.map JVal.orZero := by
  intro l
  induction l with
  | nil => intro _; rfl
  | cons x xs ih =>
      intro h
      have hx : x.isNum = true := h x (by simp)
      cases x with
      | num q =>
          rw [List.filterMap_cons, List.map_cons]
          simp only [JVal.toNumber, JVal.orZero]
          rw [ih (fun y hy => h y (by simp [hy]))]
      | undef => simp [JVal.isNum] at hx
      | null => simp [JVal.isNum] at hx

lemma jsMathMax_of_num : ∀ (v : JVal) (l : List JVal),
    (∀ x ∈ v :: l, x.isNum = true) →
    jsMathMax (v :: l) = some (maxOf v.orZero (l.map JVal.orZero)) := by
  intro v l h
  have hall : (v :: l).all (fun x => x.toNumber.isSome) = true := by
    rw [List.all_eq_true]
    intro x hx
    have := h x hx
    cases x with
    | num q => simp [JVal.toNumber]
    | undef => simp [JVal.isNum] at this
    | null => simp [JVal.toNumber]
  have hfm : (v :: l).filterMap JVal.toNumber =
      v.orZero :: l.map JVal.orZero := by
    rw [filterMap_toNumber_of_num (v :: l) h, List.map_cons]
  unfold jsMathMax
  rw [if_pos hall, hfm]
  rfl

/-- C5: the risk level is Low on empty inputs, and otherwise is the
classification of the sum of the three spec factors (concentration from the
maximum percentage, asset count, and mean absolute 24h change), provided
every allocation percentage is a number. -/
theorem C5_risk_classification :
    (∀ l, assessRiskLevel (.arr []) (.arr l) = .Low)
    ∧ (∀ l, assessRiskLevel (.arr l) (.arr []) = .Low)
    ∧ (∀ a l b s, (∀ x ∈ a :: l, x.percentage.isNum = true) →
        assessRiskLevel (.arr (a :: l)) (.arr (b :: s)) =
          specClassify
            (specConcentrationRisk
                (maxOf a.percentage.orZero
                  (l.map (fun x => x.percentage.orZero)))
              + specCountRisk (b :: s).length
              + specVolatilityRisk (specAvgAbsChange (b :: s)))) := by
  refine ⟨?_, ?_, ?_⟩
  · intro l
    unfold assessRiskLevel riskBody
    simp
  · intro l
    cases l with
    | nil => rfl
    | cons a l =>
        unfold assessRiskLevel riskBody
        simp
  · intro a l b s hnum
    have hmapnum : ∀ y ∈ (a :: l).map (fun x => x.percentage),
        y.isNum = true := by
      intro y hy
      rcases List.mem_map.mp hy with ⟨x, hx, rfl⟩
      exact hnum x hx
    have hmax : jsMathMax ((a :: l).map (fun x => x.percentage)) =
        some (maxOf a.percentage.orZero
          (l.map (fun x => x.percentage.orZero))) := by
      rw [List.map_cons]
      rw [jsMathMax_of_num _ _ (by rw [← List.map_cons]; exact hmapnum)]
      rw [List.map_map]
      rfl
    unfold assessRiskLevel
    have hbody : riskBody (.arr (a :: l)) (.arr (b :: s)) =
        .ok (specClassify
          (specConcentrationRisk
              (maxOf a.percentage.orZero
                (l.map (fun x => x.percentage.orZero)))
            + specCountRisk (b :: s).length
            + specVolatilityRisk (specAvgAbsChange (b :: s)))) := by
      simp only [riskBody]
      rw [if_neg (by simp)]
      rw [hmax]
      simp only [gtJ, specClassify, specConcentrationRisk, specCountRisk,
        specVolatilityRisk, specAvgAbsChange, decide_eq_true_eq]
    rw [hbody]

/-- Witness for C5 at a concrete input: an 80/20 allocation over two
low-volatility assets classifies as the spec formula says. -/
theorem C5_witness :
    (∀ x ∈ [AllocationData.mk (.num 80), AllocationData.mk (.num 20)],
      x.percentage.isNum = true)
    ∧ assessRiskLevel
        (.arr [AllocationData.mk (.num 80), AllocationData.mk (.num 20)])
        (.arr [mkAsset "btc" "BTC" 50000 1 (.num 5),
               mkAsset "eth" "ETH" 3000 10 (.num 5)]) =
      specClassify
        (specConcentrationRisk
            (maxOf ((AllocationData.mk (.num 80)).percentage.orZero)
              ([AllocationData.mk (.num 20)].map
                (fun x => x.percentage.orZero)))
          + specCountRisk ([mkAsset "btc" "BTC" 50000 1 (.num 5),
              mkAsset "eth" "ETH" 3000 10 (.num 5)] :
                List EnrichedAsset).length
          + specVolatilityRisk (specAvgAbsChange
              [mkAsset "btc" "BTC" 50000 1 (.num 5),
               mkAsset "eth" "ETH" 3000 10 (.num 5)])) :=
  ⟨by decide,
   C5_risk_classification.2.2 (AllocationData.mk (.num 80))
     [AllocationData.mk (.num 20)]
     (mkAsset "btc" "BTC" 50000 1 (.num 5))
     [mkAsset "eth" "ETH" 3000 10 (.num 5)] (by decide)⟩

lemma le_maxOf (q : ℚ) (l : List ℚ) : q ≤ maxOf q l := by
  induction l generalizing q with
  | nil => simp [maxOf]
  | cons x xs ih =>
      show q ≤ maxOf (max q x) xs
      exact le_trans (le_max_left q x) (ih (max q x))

lemma minOf_le (q : ℚ) (l : List ℚ) : minOf q l ≤ q := by
  induction l generalizing q with
  | nil => simp [minOf]
  | cons x xs ih =>
      show minOf (min q x) xs ≤ q
      exact le_trans (ih (min q x)) (min_le_left q x)

/-- The running left-fold used for the best performer returns the first
element of the list (seed first) whose key attains the maximum key. -/
lemma find_first_max (key : PerformerData → ℚ) :
    ∀ (l : List PerformerData) (p : PerformerData),
      List.find? (fun x => key x == maxOf (key p) (l.map key)) (p :: l) =
        some (List.foldl (fun b c => if key b < key c then c else b) p l) := by
  intro l
  induction l with
  | nil =>
      intro p
      simp [maxOf, List.find?]
  | cons c rest ih =>
      intro p
      by_cases h : key p < key c
      · have hfoldstep : List.foldl
            (fun b c => if key b < key c then c else b) p (c :: rest) =
            List.foldl (fun b c => if key b < key c then c else b) c rest := by
          simp [h]
        have hstep : maxOf (key p) ((c :: rest).map key) =
            maxOf (key c) (rest.map key) := by
          rw [List.map_cons]
          show maxOf (max (key p) (key c)) (rest.map key) = _
          rw [max_eq_right (le_of_lt h)]
        rw [hfoldstep, hstep]
        have hlt : key p < maxOf (key c) (rest.map key) :=
          lt_of_lt_of_le h (le_maxOf _ _)
        rw [List.find?_cons_of_neg]
        · exact ih c
        · simp [ne_of_lt hlt]
      · have hcp : key c ≤ key p := not_lt.mp h
        have hfoldstep : List.foldl
            (fun b c => if key b < key c then c else b) p (c :: rest) =
            List.foldl (fun b c => if key b < key c then c else b) p rest := by
          simp [h]
        have hstep : maxOf (key p) ((c :: rest).map key) =
            maxOf (key p) (rest.map key) := by
          rw [List.map_cons]
          show maxOf (max (key p) (key c)) (rest.map key) = _
          rw [max_eq_left hcp]
        rw [hfoldstep, hstep]
        have hM : key p ≤ maxOf (key p) (rest.map key) := le_maxOf _ _
        have ihp := ih p
        by_cases hp : key p = maxOf (key p) (rest.map key)
        · rw [List.find?_cons_of_pos _ (by simp only [beq_iff_eq]; exact hp)] at ihp
          rw [List.find?_cons_of_pos _ (by simp only [beq_iff_eq]; exact hp)]
          exact ihp
        · have hc : ¬ (key c = maxOf (key p) (rest.map key)) := by
            intro hceq
            exact hp (le_antisymm hM (hceq ▸ hcp))
          rw [List.find?_cons_of_neg _ (by simp [hp])]
          rw [List.find?_cons_of_neg _ (by simp [hc])]
          rw [List.find?_cons_of_neg _ (by simp [hp])] at ihp
          exact ihp

/-- The running left-fold used for the worst performer returns the first
element of the list (seed first) whose key attains the minimum key. -/
lemma find_first_min (key : PerformerData → ℚ) :
    ∀ (l : List PerformerData) (p : PerformerData),
      List.find? (fun x => key x == minOf (key p) (l.map key)) (p :: l) =
        some (List.foldl (fun b c => if key c < key b then c else b) p l) := by
  intro l
  induction l with
  | nil =>
      intro p
      simp [minOf, List.find?]
  | cons c rest ih =>
      intro p
      by_cases h : key c < key p
      · have hfoldstep : List.foldl
            (fun b c => if key c < key b then c else b) p (c :: rest) =
            List.foldl (fun b c => if key c < key b then c else b) c rest := by
          simp [h]
        have hstep : minOf (key p) ((c :: rest).map key) =
            minOf (key c) (rest.map key) := by
          rw [List.map_cons]
          show minOf (min (key p) (key c)) (rest.map key) = _
          rw [min_eq_right (le_of_lt h)]
        rw [hfoldstep, hstep]
        have hlt : minOf (key c) (rest.map key) < key p :=
          lt_of_le_of_lt (minOf_le _ _) h
        rw [List.find?_cons_of_neg]
        · exact ih c
        · simp [(ne_of_lt hlt).symm]
      · have hcp : key p ≤ key c := not_lt.mp h
        have hfoldstep : List.foldl
            (fun b c => if key c < key b then c else b) p (c :: rest) =
            List.foldl (fun b c => if key c < key b then c else b) p rest := by
          simp [h]
        have hstep : minOf (key p) ((c :: rest).map key) =
            minOf (key p) (rest.map key) := by
          rw [List.map_cons]
          show minOf (min (key p) (key c)) (rest.map key) = _
          rw [min_eq_left hcp]
        rw [hfoldstep, hstep]
        have hM : minOf (key p) (rest.map key) ≤ key p := minOf_le _ _
        have ihp := ih p
        by_cases hp : key p = minOf (key p) (rest.map key)
        · rw [List.find?_cons_of_pos _ (by simp only [beq_iff_eq]; exact hp)] at ihp
          rw [List.find?_cons_of_pos _ (by simp only [beq_iff_eq]; exact hp)]
          exact ihp
        · have hc : ¬ (key c = minOf (key p) (rest.map key)) := by
            intro hceq
            exact hp (le_antisymm (hceq ▸ hcp) hM)
          rw [List.find?_cons_of_neg _ (by simp [hp])]
          rw [List.find?_cons_of_neg _ (by simp [hc])]
          rw [List.find?_cons_of_neg _ (by simp [hp])] at ihp
          exact ihp

/-- C6: on a non-empty asset list and non-negative total value,
identifyPerformers returns as best performer the first asset (in input
order) attaining the maximum 24h percentage, but only when that maximum is
positive, and as worst performer the first asset attaining the minimum,
but only when that minimum is negative; the empty list yields two nulls. -/
theorem C6_performer_identification :
    (∀ t : ℚ, 0 ≤ t → identifyPerformers (.arr []) (.num t) = ⟨none, none⟩)
    ∧ (∀ (a : EnrichedAsset) (l : List EnrichedAsset) (t : ℚ), 0 ≤ t →
        identifyPerformers (.arr (a :: l)) (.num t) =
          { bestPerformer :=
              if 0 < maxOf (toPerformerData a).percentage
                  ((l.map toPerformerData).map (fun x => x.percentage)) then
                List.find? (fun x => x.percentage ==
                    maxOf (toPerformerData a).percentage
                      ((l.map toPerformerData).map (fun x => x.percentage)))
                  (toPerformerData a :: l.map toPerformerData)
              else none
            worstPerformer :=
              if minOf (toPerformerData a).percentage
                  ((l.map toPerformerData).map (fun x => x.percentage)) < 0 then
                List.find? (fun x => x.percentage ==
                    minOf (toPerformerData a).percentage
                      ((l.map toPerformerData).map (fun x => x.percentage)))
                  (toPerformerData a :: l.map toPerformerData)
              else none }) := by
  constructor
  · intro t ht
    have hbody : performersBody (.arr []) (.num t) = .ok ⟨none, none⟩ := by
      simp [performersBody, totalValueValid, ht]
    unfold identifyPerformers
    rw [hbody]
  · intro a l t ht
    have hbest := find_first_max (fun x => x.percentage)
      (l.map toPerformerData) (toPerformerData a)
    have hworst := find_first_min (fun x => x.percentage)
      (l.map toPerformerData) (toPerformerData a)
    have hbestkey : (List.foldl
        (fun b c => if b.percentage < c.percentage then c else b)
        (toPerformerData a) (l.map toPerformerData)).percentage =
        maxOf (toPerformerData a).percentage
          ((l.map toPerformerData).map (fun x => x.percentage)) := by
      have := List.find?_some hbest
      simpa using this
    have hworstkey : (List.foldl
        (fun b c => if c.percentage < b.percentage then c else b)
        (toPerformerData a) (l.map toPerformerData)).percentage =
        minOf (toPerformerData a).percentage
          ((l.map toPerformerData).map (fun x => x.percentage)) := by
      have := List.find?_some hworst
      simpa using this
    have hbody : performersBody (.arr (a :: l)) (.num t) = .ok
        { bestPerformer :=
            if 0 < maxOf (toPerformerData a).percentage
                ((l.map toPerformerData).map (fun x => x.percentage)) then
              List.find? (fun x => x.percentage ==
                  maxOf (toPerformerData a).percentage
                    ((l.map toPerformerData).map (fun x => x.percentage)))
                (toPerformerData a :: l.map toPerformerData)
            else none
          worstPerformer :=
            if minOf (toPerformerData a).percentage
                ((l.map toPerformerData).map (fun x => x.percentage)) < 0 then
              List.find? (fun x => x.percentage ==
                  minOf (toPerformerData a).percentage
                    ((l.map toPerformerData).map (fun x => x.percentage)))
                (toPerformerData a :: l.map toPerformerData)
            else none } := by
      simp only [performersBody]
      rw [if_pos (by simp [totalValueValid, ht])]
      rw [if_neg (by simp : ¬ ((a :: l).length = 0))]
      simp only [List.map_cons]
      rw [hbestkey, hworstkey, ← hbest, ← hworst]
    unfold identifyPerformers
    rw [hbody]

/-- Witness for C6 at a concrete input: three assets with 24h changes 5, -2
and 8, total value 0. -/
theorem C6_witness :
    ((0 : ℚ) ≤ 0)
    ∧ identifyPerformers
        (.arr [mkAsset "btc" "BTC" 50000 1 (.num 5),
               mkAsset "eth" "ETH" 3000 10 (.num (-2)),
               mkAsset "sol" "SOL" 100 50 (.num 8)]) (.num 0) =
      { bestPerformer :=
          if 0 < maxOf (toPerformerData (mkAsset "btc" "BTC" 50000 1 (.num 5))).percentage
              (([mkAsset "eth" "ETH" 3000 10 (.num (-2)),
                 mkAsset "sol" "SOL" 100 50 (.num 8)].map toPerformerData).map
                (fun x => x.percentage)) then
            List.find? (fun x => x.percentage ==
                maxOf (toPerformerData (mkAsset "btc" "BTC" 50000 1 (.num 5))).percentage
                  (([mkAsset "eth" "ETH" 3000 10 (.num (-2)),
                     mkAsset "sol" "SOL" 100 50 (.num 8)].map toPerformerData).map
                    (fun x => x.percentage)))
              (toPerformerData (mkAsset "btc" "BTC" 50000 1 (.num 5)) ::
                [mkAsset "eth" "ETH" 3000 10 (.num (-2)),
                 mkAsset "sol" "SOL" 100 50 (.num 8)].map toPerformerData)
          else none
        worstPerformer :=
          if minOf (toPerformerData (mkAsset "btc" "BTC" 50000 1 (.num 5))).percentage
              (([mkAsset "eth" "ETH" 3000 10 (.num (-2)),
                 mkAsset "sol" "SOL" 100 50 (.num 8)].map toPerformerData).map
                (fun x => x.percentage)) < 0 then
            List.find? (fun x => x.percentage ==
                minOf (toPerformerData (mkAsset "btc" "BTC" 50000 1 (.num 5))).percentage
                  (([mkAsset "eth" "ETH" 3000 10 (.num (-2)),
                     mkAsset "sol" "SOL" 100 50 (.num 8)].map toPerformerData).map
                    (fun x => x.percentage)))
              (toPerformerData (mkAsset "btc" "BTC" 50000 1 (.num 5)) ::
                [mkAsset "eth" "ETH" 3000 10 (.num (-2)),
                 mkAsset "sol" "SOL" 100 50 (.num 8)].map toPerformerData)
          else none } :=
  ⟨le_refl 0,
   C6_performer_identification.2 (mkAsset "btc" "BTC" 50000 1 (.num 5))
     [mkAsset "eth" "ETH" 3000 10 (.num (-2)),
      mkAsset "sol" "SOL" 100 50 (.num 8)] 0 (le_refl 0)⟩

lemma round2R_zero : round2R 0 = 0 := by
  unfold round2R
  norm_num

lemma round2R_nonneg {x : ℝ} (h : 0 ≤ x) : 0 ≤ round2R x := by
  unfold round2R
  have : (0 : ℤ) ≤ ⌊x * 100 + 1 / 2⌋ := by
    apply Int.floor_nonneg.mpr
    linarith
  positivity

lemma specVariance_nonneg (xs : List ℚ) : 0 ≤ specVariance xs := by
  unfold specVariance
  apply div_nonneg
  · apply List.sum_nonneg
    intro y hy
    rcases List.mem_map.mp hy with ⟨x, hx, rfl⟩
    positivity
  · positivity

/-- C2 as stated is false: when every 24h change is the same non-zero value
the volatility is 0 but the mean is not, and the source guard (on the mean,
not the volatility) divides by zero: a single asset at +5 percent gives
volatility 0 and a positive-infinite Sharpe ratio instead of the 0 the
claim requires. -/
theorem C2_counterexample :
    (calculateAdvancedMetrics
        (.arr [mkAsset "btc" "BTC" 50000 1 (.num 5)])).volatility = .fin 0
    ∧ (calculateAdvancedMetrics
        (.arr [mkAsset "btc" "BTC" 50000 1 (.num 5)])).sharpe = .posInf := by
  have hpc : pcList [mkAsset "btc" "BTC" 50000 1 (.num 5)] = [(5 : ℚ)] := rfl
  have hvar : specVariance (pcList [mkAsset "btc" "BTC" 50000 1 (.num 5)]) = 0 := by
    rw [hpc]
    norm_num [specVariance, specMean]
  have hmean : specMean (pcList [mkAsset "btc" "BTC" 50000 1 (.num 5)]) = 5 := by
    rw [hpc]
    norm_num [specMean]
  have hvol : specVolatility (pcList [mkAsset "btc" "BTC" 50000 1 (.num 5)]) = 0 := by
    unfold specVolatility
    rw [hvar]
    simp [Real.sqrt_zero]
  constructor
  · have h1 : (calculateAdvancedMetrics
        (.arr [mkAsset "btc" "BTC" 50000 1 (.num 5)])).volatility =
        .fin (round2R (specVolatility
          (pcList [mkAsset "btc" "BTC" 50000 1 (.num 5)]))) := rfl
    rw [h1, hvol, round2R_zero]
  · have h2 : (calculateAdvancedMetrics
        (.arr [mkAsset "btc" "BTC" 50000 1 (.num 5)])).sharpe =
        roundRV (if specMean (pcList [mkAsset "btc" "BTC" 50000 1 (.num 5)]) ≠ 0
          then jsDiv
            ((specMean (pcList [mkAsset "btc" "BTC" 50000 1 (.num 5)]) : ℚ) : ℝ)
            (specVolatility (pcList [mkAsset "btc" "BTC" 50000 1 (.num 5)]))
          else .fin 0) := rfl
    rw [h2, if_pos (by rw [hmean]; norm_num), hvol, hmean]
    norm_num [jsDiv, roundRV]

/-- C2 amended: the Sharpe ratio guard is on the mean, not the volatility:
for every non-empty asset list the field equals round2(mean / volatility)
computed with IEEE division when the mean is non-zero (hence positive or
negative infinity when the volatility is 0), and 0 when the mean is 0.
When both mean and volatility are non-zero this agrees with the original
claim. -/
theorem C2_sharpe_amended :
    ∀ (a : EnrichedAsset) (l : List EnrichedAsset),
      (calculateAdvancedMetrics (.arr (a :: l))).sharpe =
        if specMean (pcList (a :: l)) ≠ 0 then
          roundRV (jsDiv ((specMean (pcList (a :: l)) : ℚ) : ℝ)
            (specVolatility (pcList (a :: l))))
        else .fin 0 := by
  intro a l
  have hs : (calculateAdvancedMetrics (.arr (a :: l))).sharpe =
      roundRV (if specMean (pcList (a :: l)) ≠ 0 then
        jsDiv ((specMean (pcList (a :: l)) : ℚ) : ℝ)
          (specVolatility (pcList (a :: l)))
      else .fin 0) := rfl
  rw [hs]
  by_cases h : specMean (pcList (a :: l)) ≠ 0
  · rw [if_pos h, if_pos h]
  · rw [if_neg h, if_neg h]
    show roundRV (.fin 0) = .fin 0
    rw [roundRV, round2R_zero]

/-- C3 as stated is false: the safeCalculation guard inspects only a
top-level number result, not the fields of a returned record, so a
portfolio of two assets both at +5 percent returns an advanced-metrics
record whose Sharpe field is positive infinity rather than the all-zero
fallback. -/
theorem C3_counterexample :
    (calculateAdvancedMetrics
        (.arr [mkAsset "btc" "BTC" 50000 1 (.num 5),
               mkAsset "eth" "ETH" 3000 10 (.num 5)])).sharpe = .posInf
    ∧ (calculateAdvancedMetrics
        (.arr [mkAsset "btc" "BTC" 50000 1 (.num 5),
               mkAsset "eth" "ETH" 3000 10 (.num 5)])).sharpe.finite = false := by
  have hpc : pcList [mkAsset "btc" "BTC" 50000 1 (.num 5),
      mkAsset "eth" "ETH" 3000 10 (.num 5)] = [(5 : ℚ), 5] := rfl
  have hvar : specVariance (pcList [mkAsset "btc" "BTC" 50000 1 (.num 5),
      mkAsset "eth" "ETH" 3000 10 (.num 5)]) = 0 := by
    rw [hpc]
    norm_num [specVariance, specMean]
  have hmean : specMean (pcList [mkAsset "btc" "BTC" 50000 1 (.num 5),
      mkAsset "eth" "ETH" 3000 10 (.num 5)]) = 5 := by
    rw [hpc]
    norm_num [specMean]
  have hvol : specVolatility (pcList [mkAsset "btc" "BTC" 50000 1 (.num 5),
      mkAsset "eth" "ETH" 3000 10 (.num 5)]) = 0 := by
    unfold specVolatility
    rw [hvar]
    simp [Real.sqrt_zero]
  have h2 : (calculateAdvancedMetrics
      (.arr [mkAsset "btc" "BTC" 50000 1 (.num 5),
             mkAsset "eth" "ETH" 3000 10 (.num 5)])).sharpe =
      roundRV (if specMean (pcList [mkAsset "btc" "BTC" 50000 1 (.num 5),
          mkAsset "eth" "ETH" 3000 10 (.num 5)]) ≠ 0
        then jsDiv
          ((specMean (pcList [mkAsset "btc" "BTC" 50000 1 (.num 5),
              mkAsset "eth" "ETH" 3000 10 (.num 5)]) : ℚ) : ℝ)
          (specVolatility (pcList [mkAsset "btc" "BTC" 50000 1 (.num 5),
              mkAsset "eth" "ETH" 3000 10 (.num 5)]))
        else .fin 0) := rfl
  have hps : (calculateAdvancedMetrics
      (.arr [mkAsset "btc" "BTC" 50000 1 (.num 5),
             mkAsset "eth" "ETH" 3000 10 (.num 5)])).sharpe = .posInf := by
    rw [h2, if_pos (by rw [hmean]; norm_num), hvol, hmean]
    norm_num [jsDiv, roundRV]
  exact ⟨hps, by rw [hps]; rfl⟩

/-- C3 amended: the volatility and drawdown fields are always finite and no
top-level numeric result is non-finite, but the safeCalculation guard does
not inspect record fields: the Sharpe field of the advanced-metrics record
is non-finite exactly when the (non-empty) assets have non-zero mean 24h
change and zero variance; empty or non-array input still yields the
all-zero record. -/
theorem C3_nonfinite_amended :
    (∀ x, (calculateAdvancedMetrics x).volatility.finite = true)
    ∧ (∀ x, (calculateAdvancedMetrics x).maxDrawdown.finite = true)
    ∧ (∀ (a : EnrichedAsset) (l : List EnrichedAsset),
        ((calculateAdvancedMetrics (.arr (a :: l))).sharpe.finite = false ↔
          (specMean (pcList (a :: l)) ≠ 0 ∧ specVariance (pcList (a :: l)) = 0)))
    ∧ calculateAdvancedMetrics .notArray = ⟨.fin 0, .fin 0, .fin 0⟩
    ∧ calculateAdvancedMetrics (.arr []) = ⟨.fin 0, .fin 0, .fin 0⟩ := by
  refine ⟨?_, ?_, ?_, rfl, rfl⟩
  · intro x
    cases x with
    | notArray => rfl
    | arr l =>
        cases l with
        | nil => rfl
        | cons a l => rfl
  · intro x
    cases x with
    | notArray => rfl
    | arr l =>
        cases l with
        | nil => rfl
        | cons a l => rfl
  · intro a l
    have hs : (calculateAdvancedMetrics (.arr (a :: l))).sharpe =
        roundRV (if specMean (pcList (a :: l)) ≠ 0 then
          jsDiv ((specMean (pcList (a :: l)) : ℚ) : ℝ)
            (specVolatility (pcList (a :: l)))
        else .fin 0) := rfl
    rw [hs]
    by_cases hm : specMean (pcList (a :: l)) ≠ 0
    · rw [if_pos hm]
      have hvge : (0 : ℝ) ≤ ((specVariance (pcList (a :: l)) : ℚ) : ℝ) := by
        exact_mod_cast specVariance_nonneg (pcList (a :: l))
      by_cases hv : specVariance (pcList (a :: l)) = 0
      · have hsq : specVolatility (pcList (a :: l)) = 0 := by
          unfold specVolatility
          rw [hv]
          simp [Real.sqrt_zero]
        rw [hsq]
        unfold jsDiv
        rw [if_neg (by simp)]
        by_cases hpos : (0 : ℝ) < ((specMean (pcList (a :: l)) : ℚ) : ℝ)
        · rw [if_pos hpos]
          simp [roundRV, RVal.finite, hm, hv]
        · have hneg : ((specMean (pcList (a :: l)) : ℚ) : ℝ) < 0 := by
            have hne : ((specMean (pcList (a :: l)) : ℚ) : ℝ) ≠ 0 := by
              exact_mod_cast hm
            rcases lt_or_gt_of_ne hne with h | h
            · exact h
            · exact absurd h hpos
          rw [if_neg hpos, if_pos hneg]
          simp [roundRV, RVal.finite, hm, hv]
      · have hvne : ((specVariance (pcList (a :: l)) : ℚ) : ℝ) ≠ 0 := by
          exact_mod_cast hv
        have hsqpos : 0 < specVolatility (pcList (a :: l)) := by
          unfold specVolatility
          exact Real.sqrt_pos.mpr (lt_of_le_of_ne hvge (Ne.symm hvne))
        unfold jsDiv
        rw [if_pos (ne_of_gt hsqpos)]
        simp [roundRV, RVal.finite, hv]
    · rw [if_neg hm]
      simp [roundRV, RVal.finite, hm]

lemma drawFold : ∀ (xs : List ℚ) (x0 : ℚ),
    (xs.map (fun c => min 0 c)).foldl min (min 0 x0) =
      min 0 (xs.foldl min x0) := by
  intro xs
  induction xs with
  | nil => intro x0; rfl
  | cons x l ih =>
      intro x0
      rw [List.map_cons, List.foldl_cons, List.foldl_cons]
      rw [(inf_inf_distrib_left (0 : ℚ) x0 x).symm]
      exact ih (min x0 x)

lemma minOf_nonneg {q : ℚ} {l : List ℚ} (hq : 0 ≤ q)
    (hl : ∀ y ∈ l, 0 ≤ y) : 0 ≤ minOf q l := by
  induction l generalizing q with
  | nil => simpa [minOf] using hq
  | cons x xs ih =>
      show 0 ≤ minOf (min q x) xs
      exact ih (le_min hq (hl x (by simp))) (fun y hy => hl y (by simp [hy]))

/-- C8: the empty asset list gives the all-zero metrics record; on a
non-empty list the volatility field is the rounded population standard
deviation of the 24h changes (missing treated as 0) and the drawdown field
is the rounded magnitude of min(0, least change); both fields are finite
non-negative numbers for every input, and the drawdown is 0 when no change
is negative. -/
theorem C8_advanced_metrics :
    calculateAdvancedMetrics (.arr []) = ⟨.fin 0, .fin 0, .fin 0⟩
    ∧ (∀ (a : EnrichedAsset) (l : List EnrichedAsset),
        (calculateAdvancedMetrics (.arr (a :: l))).volatility =
          .fin (round2R (specVolatility (pcList (a :: l)))))
    ∧ (∀ (a : EnrichedAsset) (l : List EnrichedAsset),
        (calculateAdvancedMetrics (.arr (a :: l))).maxDrawdown =
          .fin ((round2 (specMaxDrawdown
            (a.price_change_percentage_24h.orZero) (pcList l)) : ℚ) : ℝ))
    ∧ (∀ x, ∃ v : ℝ, (calculateAdvancedMetrics x).volatility = .fin v ∧ 0 ≤ v)
    ∧ (∀ x, ∃ d : ℝ, (calculateAdvancedMetrics x).maxDrawdown = .fin d ∧ 0 ≤ d)
    ∧ (∀ (a : EnrichedAsset) (l : List EnrichedAsset),
        (∀ q ∈ pcList (a :: l), 0 ≤ q) →
        (calculateAdvancedMetrics (.arr (a :: l))).maxDrawdown = .fin 0) := by
  have hdraw : ∀ (a : EnrichedAsset) (l : List EnrichedAsset),
      (calculateAdvancedMetrics (.arr (a :: l))).maxDrawdown =
        .fin ((round2 (specMaxDrawdown
          (a.price_change_percentage_24h.orZero) (pcList l)) : ℚ) : ℝ) := by
    intro a l
    have h1 : (calculateAdvancedMetrics (.arr (a :: l))).maxDrawdown =
        .fin ((round2 |((pcList l).map (fun c => min 0 c)).foldl min
          (min 0 (a.price_change_percentage_24h.orZero))| : ℚ) : ℝ) := rfl
    rw [h1, drawFold]
    rfl
  have hvol : ∀ (a : EnrichedAsset) (l : List EnrichedAsset),
      (calculateAdvancedMetrics (.arr (a :: l))).volatility =
        .fin (round2R (specVolatility (pcList (a :: l)))) := fun a l => rfl
  refine ⟨rfl, hvol, hdraw, ?_, ?_, ?_⟩
  · intro x
    cases x with
    | notArray => exact ⟨0, rfl, le_refl 0⟩
    | arr l =>
        cases l with
        | nil => exact ⟨0, rfl, le_refl 0⟩
        | cons a l =>
            refine ⟨round2R (specVolatility (pcList (a :: l))), hvol a l, ?_⟩
            exact round2R_nonneg (Real.sqrt_nonneg _)
  · intro x
    cases x with
    | notArray => exact ⟨0, rfl, le_refl 0⟩
    | arr l =>
        cases l with
        | nil => exact ⟨0, rfl, le_refl 0⟩
        | cons a l =>
            refine ⟨((round2 (specMaxDrawdown
              (a.price_change_percentage_24h.orZero) (pcList l)) : ℚ) : ℝ),
              hdraw a l, ?_⟩
            have : (0 : ℚ) ≤ round2 (specMaxDrawdown
                (a.price_change_percentage_24h.orZero) (pcList l)) :=
              round2_nonneg (abs_nonneg _)
            exact_mod_cast this
  · intro a l hq
    rw [hdraw a l]
    have hmin : minOf (a.price_change_percentage_24h.orZero) (pcList l) ≥ 0 := by
      apply minOf_nonneg
      · exact hq _ (by simp [pcList])
      · intro y hy
        exact hq y (by simp [pcList]; right; simpa [pcList] using hy)
    have hdd : specMaxDrawdown (a.price_change_percentage_24h.orZero)
        (pcList l) = 0 := by
      unfold specMaxDrawdown
      rw [min_eq_left hmin]
      simp
    rw [hdd, round2_zero]
    norm_num

/-- Witness for C8 at a concrete input: a single asset at +3 percent has
no negative change, so its drawdown field is zero. -/
theorem C8_witness :
    (∀ q ∈ pcList [mkAsset "btc" "BTC" 50000 1 (.num 3)], 0 ≤ q)
    ∧ (calculateAdvancedMetrics
        (.arr [mkAsset "btc" "BTC" 50000 1 (.num 3)])).maxDrawdown = .fin 0 :=
  ⟨by decide,
   C8_advanced_metrics.2.2.2.2.2 (mkAsset "btc" "BTC" 50000 1 (.num 3)) []
     (by decide)⟩

/-- Spec wording of the per-asset validation errors, amended: missing id;
missing symbol; current price not a non-negative number; holding quantity
not a non-negative number; price change that is non-null and not a number
(so an absent value is flagged, only an explicit null is exempt). -/
def specAssetErrors (idx : ℕ) (a : EnrichedAsset) : List String :=
  (if a.id.getD "" = "" then ["Asset " ++ toString idx ++ ": Missing ID"]
   else [])
  ++ (if a.symbol.getD "" = "" then
        ["Asset " ++ toString idx ++ ": Missing symbol"] else [])
  ++ (if ¬ (a.current_price.isNum = true ∧ 0 ≤ a.current_price.orZero) then
        ["Asset " ++ toString idx ++ ": Invalid current price"] else [])
  ++ (if ¬ (a.holding_quantity.isNum = true ∧ 0 ≤ a.holding_quantity.orZero)
      then ["Asset " ++ toString idx ++ ": Invalid holding quantity"] else [])
  ++ (if (a.price_change_percentage_24h ≠ .null ∧
          a.price_change_percentage_24h.isNum = false) then
        ["Asset " ++ toString idx ++ ": Invalid price change percentage"]
      else [])

lemma specAssetErrors_eq (idx : ℕ) (a : EnrichedAsset) :
    specAssetErrors idx a = validateAsset idx a := by
  unfold specAssetErrors validateAsset
  cases hp : a.current_price <;> cases hq : a.holding_quantity <;>
    cases hpc : a.price_change_percentage_24h <;>
      simp [JVal.isNum, JVal.orZero, not_le]

/-- C7 as stated is false on the absent-field case: an otherwise fully
valid asset whose price change field is absent (undefined) is flagged as
invalid, because the source checks "value strictly different from null and
not of type number", and undefined satisfies both. -/
theorem C7_counterexample :
    validatePortfolioData (.arr [mkAsset "bitcoin" "BTC" 50000 1 .undef]) =
      ⟨false, ["Asset 1: Invalid price change percentage"]⟩ := by
  decide

/-- C7 amended: non-array and empty inputs give their fixed error records;
a non-empty list accumulates, per asset at 1-indexed position and without
short-circuiting, exactly the amended per-asset errors (absent price change
flagged, null exempt), and validity holds exactly when the error list is
empty. -/
theorem C7_validation_amended :
    validatePortfolioData .notArray = ⟨false, ["Assets must be an array"]⟩
    ∧ validatePortfolioData (.arr []) = ⟨false, ["Portfolio cannot be empty"]⟩
    ∧ (∀ (a : EnrichedAsset) (l : List EnrichedAsset),
        validatePortfolioData (.arr (a :: l)) =
          ⟨(((a :: l).enum.map
              (fun p => specAssetErrors (p.1 + 1) p.2)).flatten).isEmpty,
           ((a :: l).enum.map
              (fun p => specAssetErrors (p.1 + 1) p.2)).flatten⟩)
    ∧ (∀ x, ((validatePortfolioData x).isValid = true ↔
        (validatePortfolioData x).errors = [])) := by
  refine ⟨rfl, rfl, ?_, ?_⟩
  · intro a l
    simp only [validatePortfolioData, validateBody, specAssetErrors_eq]
  · intro x
    cases x with
    | notArray => simp [validatePortfolioData, validateBody]
    | arr l =>
        cases l with
        | nil => simp [validatePortfolioData, validateBody]
        | cons a l =>
            simp [validatePortfolioData, validateBody, List.isEmpty_iff]

/-- C10: the performers result does not depend on the total portfolio value
beyond its validation: any two non-negative totals give identical results,
and a negative or non-numeric total gives the all-null fallback. -/
theorem C10_total_value_independent :
    (∀ (x : JArr EnrichedAsset) (t1 t2 : ℚ), 0 ≤ t1 → 0 ≤ t2 →
        identifyPerformers x (.num t1) = identifyPerformers x (.num t2))
    ∧ (∀ (x : JArr EnrichedAsset) (t : ℚ), t < 0 →
        identifyPerformers x (.num t) = ⟨none, none⟩)
    ∧ (∀ x, identifyPerformers x .undef = ⟨none, none⟩)
    ∧ (∀ x, identifyPerformers x .null = ⟨none, none⟩) := by
  refine ⟨?_, ?_, ?_, ?_⟩
  · intro x t1 t2 h1 h2
    cases x with
    | notArray => rfl
    | arr l =>
        have e1 : totalValueValid (.num t1) = true := by
          simp [totalValueValid, h1]
        have e2 : totalValueValid (.num t2) = true := by
          simp [totalValueValid, h2]
        unfold identifyPerformers
        simp only [performersBody, e1, e2]
  · intro x t h
    cases x with
    | notArray => rfl
    | arr l =>
        have e : totalValueValid (.num t) = false := by
          simp [totalValueValid]
          exact h
        unfold identifyPerformers
        simp only [performersBody, e]
        rfl
  · intro x
    cases x with
    | notArray => rfl
    | arr l => rfl
  · intro x
    cases x with
    | notArray => rfl
    | arr l => rfl

/-- Witness for C10 at a concrete input: totals 0 and 1 over the empty
asset list give identical results. -/
theorem C10_witness :
    ((0 : ℚ) ≤ 0) ∧ ((0 : ℚ) ≤ 1)
    ∧ identifyPerformers (.arr []) (.num 0) =
        identifyPerformers (.arr []) (.num 1) :=
  ⟨le_refl 0, by norm_num,
   C10_total_value_independent.1 (.arr []) 0 1 (le_refl 0) (by norm_num)⟩

end PortfolioInsights
